import Mathlib

/-!
Shallow embedding of `src/batch-convert.py` (a batch video→MP4 converter
driving ffmpeg/ffprobe as child processes) and verification of its
specification claims.

External-process behaviour (what ffprobe / ffmpeg do when invoked) is
modelled as explicit per-file inputs (`ProbeRun`, `LaunchResult`); the
script's own control flow, string processing and state are transcribed
from the source.
-/

namespace BatchConvert

/-! ### The progress-record matcher (line 126: `re.compile(r"out_time_ms=(\d+)")`) -/

/-- Consume a maximal run of ASCII digits from the front of a character list,
returning the digits and the remainder (the `\d+` part of the regex). -/
def takeDigits : List Char → List Char × List Char
  | [] => ([], [])
  | c :: cs =>
    if c.isDigit then
      let (ds, rest) := takeDigits cs
      (c :: ds, rest)
    else ([], c :: cs)

/-- Numeric value of a digit run (most significant first). -/
def digitsVal (ds : List Char) : Nat :=
  ds.foldl (fun a c => a * 10 + (c.toNat - 48)) 0

/-- The literal key of the progress record grammar. -/
def outTimeKey : List Char := "out_time_ms=".data

/-- Try to match `out_time_ms=(\d+)` at the head of the character list,
returning the captured integer on success. -/
def matchAt (cs : List Char) : Option Nat :=
  if outTimeKey.isPrefixOf cs then
    let (ds, _) := takeDigits (cs.drop outTimeKey.length)
    if ds = [] then none else some (digitsVal ds)
  else none

/-- Leftmost search of the pattern in a character list, as `re.search` does:
try each start position in order. -/
def searchFrom : List Char → Option Nat
  | [] => none
  | c :: cs =>
    match matchAt (c :: cs) with
    | some v => some v
    | none => searchFrom cs

/-- Model of `time_re.search(line)` followed by `int(match.group(1))`:
the first `out_time_ms=<digits>` occurrence in the line, if any. -/
def timeReSearch (line : String) : Option Nat :=
  searchFrom line.data

/-! ### The progress loop (lines 127–137) -/

/-- The supervisor's per-task progress state: the `current_time` variable
(line 127) and the sequence of `pbar.update` arguments emitted so far. -/
structure ProgressState where
  current_time : ℚ
  deltas : List ℚ
deriving DecidableEq

/-- Initial state at task start: `current_time = 0`, nothing emitted. -/
def initProgress : ProgressState := { current_time := 0, deltas := [] }

/-- One iteration of the stdout loop (lines 130–137): on a regex match,
`elapsed_s = elapsed_us / 1_000_000`, emit `pbar.update(elapsed_s - current_time)`
and set `current_time = elapsed_s`; otherwise the line is ignored. -/
def progressStep (st : ProgressState) (line : String) : ProgressState :=
  match timeReSearch line with
  | none => st
  | some us =>
    let elapsed_s : ℚ := (us : ℚ) / 1000000
    { current_time := elapsed_s, deltas := st.deltas ++ [elapsed_s - st.current_time] }

/-- Run the whole stdout loop of one task over its line stream. -/
def runProgress (lines : List String) : ProgressState :=
  lines.foldl progressStep initProgress

/-- The delta sequence a task hands to the progress bar. -/
def taskDeltas (lines : List String) : List ℚ :=
  (runProgress lines).deltas

/-- The elapsed-seconds values of the matching records of a stream, in order. -/
def matchedSeconds (lines : List String) : List ℚ :=
  (lines.filterMap timeReSearch).map (fun us : ℕ => (us : ℚ) / 1000000)

/-- The trace of the `current_time` tracker: its value before the loop and
after each line. -/
def currentTimes (c : ℚ) : List String → List ℚ
  | [] => [c]
  | line :: rest =>
    c :: currentTimes (match timeReSearch line with
                       | none => c
                       | some us => (us : ℚ) / 1000000) rest

/-! ### Path handling: `os.path.splitext`, `os.path.join` -/

/-- Split a character list at its last `'.'`: `l = pre ++ '.' :: suf` with no
`'.'` in `suf`. `none` when the list has no dot. -/
def lastDotSplit : List Char → Option (List Char × List Char)
  | [] => none
  | c :: cs =>
    match lastDotSplit cs with
    | some (p, s) => some (c :: p, s)
    | none => if c = '.' then some ([], cs) else none

/-- Split a character list at its last `'/'`: `l = pre ++ '/' :: suf` with no
`'/'` in `suf`. `none` when the list has no separator. -/
def lastSepSplit : List Char → Option (List Char × List Char)
  | [] => none
  | c :: cs =>
    match lastSepSplit cs with
    | some (p, s) => some (c :: p, s)
    | none => if c = '/' then some ([], cs) else none

/-- Model of `os.path.splitext` on the final path component: split at the last dot,
except that a dot with only dots before it in the component starts no
extension (so `".bashrc"` has no extension), as CPython's `_splitext` does. -/
def splitextBase (base : List Char) : List Char × List Char :=
  match lastDotSplit base with
  | none => (base, [])
  | some (pre, suf) =>
    if pre.any (fun c => c ≠ '.') then (pre, '.' :: suf) else (base, [])

/-- Model of `os.path.splitext(p)`: `(root, ext)` with `p = root ++ ext`; the extension
is taken within the final `'/'`-separated component. -/
def splitext (p : String) : String × String :=
  match lastSepSplit p.data with
  | none =>
    let (r, e) := splitextBase p.data
    (String.mk r, String.mk e)
  | some (pre, base) =>
    let (r, e) := splitextBase base
    (String.mk (pre ++ '/' :: r), String.mk e)

/-- Model of `os.path.join(a, b)` for the POSIX flavour the script runs under. -/
def osJoin (a b : String) : String :=
  if a = "" then b
  else if b.data.head? = some '/' then b
  else if a.data.getLast? = some '/' then a ++ b
  else a ++ "/" ++ b

/-! ### File discovery (lines 67–76) -/

/-- The `video_extensions` list (line 67). -/
def video_extensions : List String := [".mkv", ".mov", ".avi", ".webm", ".flv", ".wmv"]

/-- One `(root, dirs, files)` triple yielded by `os.walk`; the `dirs` entry is
ignored by the script. -/
structure WalkEntry where
  root : String
  files : List String
deriving DecidableEq

/-- The extension test of line 75: `file_ext.lower() in video_extensions`. -/
def extMatches (filename : String) : Bool :=
  video_extensions.contains (splitext filename).2.toLower

/-- The nested discovery loops of lines 71–76: for each walk entry, for each
filename, append `os.path.join(root, filename)` when the extension matches. -/
def discoverFiles (walk : List WalkEntry) : List String :=
  walk.foldl
    (fun acc e =>
      e.files.foldl
        (fun acc2 filename =>
          if extMatches filename then acc2 ++ [osJoin e.root filename] else acc2)
        acc)
    []

/-! ### The duration probe, `get_video_duration` (lines 42–60) -/

/-- Python whitespace stripped by `str.strip()`. -/
def pyWhitespace (c : Char) : Bool :=
  c = ' ' || c = '\t' || c = '\n' || c = '\x0d' || c = '\x0b' || c = '\x0c'

/-- Model of `str.strip()`: drop whitespace from both ends. -/
def pyStrip (cs : List Char) : List Char :=
  ((cs.dropWhile pyWhitespace).reverse.dropWhile pyWhitespace).reverse

/-- Fractional value of a digit run read after a decimal point. -/
def fracVal (ds : List Char) : ℚ :=
  (digitsVal ds : ℚ) / (10 : ℚ) ^ ds.length

/-- Parse an unsigned decimal literal `digits [. digits]` (at least one digit
overall) from the front of a character list. -/
def parseDecimal (cs : List Char) : Option (ℚ × List Char) :=
  let (ip, r1) := takeDigits cs
  match r1 with
  | '.' :: r2 =>
    let (fp, r3) := takeDigits r2
    if ip = [] ∧ fp = [] then none
    else some ((digitsVal ip : ℚ) + fracVal fp, r3)
  | _ => if ip = [] then none else some ((digitsVal ip : ℚ), r1)

/-- Scale by a signed power of ten (decimal exponent). -/
def applyExp (q : ℚ) (e : Int) : ℚ :=
  if 0 ≤ e then q * (10 : ℚ) ^ e.toNat else q / (10 : ℚ) ^ (-e).toNat

/-- Parse an optional exponent part `(e|E)[+|-]digits`. -/
def parseExpPart (q : ℚ) (cs : List Char) : Option (ℚ × List Char) :=
  match cs with
  | 'e' :: r | 'E' :: r =>
    let (sgn, r1) : Int × List Char :=
      match r with
      | '-' :: r2 => (-1, r2)
      | '+' :: r2 => (1, r2)
      | _ => (1, r)
    let (ds, r3) := takeDigits r1
    if ds = [] then none else some (applyExp q (sgn * (digitsVal ds : Int)), r3)
  | _ => some (q, cs)

/-- Model of Python `float(s)` on the finite decimal forms ffprobe emits:
optional sign, decimal digits with optional fraction and exponent,
surrounded by optional whitespace; `none` models `ValueError`. -/
def pythonFloat (s : String) : Option ℚ :=
  let cs := pyStrip s.data
  let (sgn, body) : ℚ × List Char :=
    match cs with
    | '-' :: r => (-1, r)
    | '+' :: r => (1, r)
    | _ => (1, cs)
  match parseDecimal body with
  | none => none
  | some (q, rest) =>
    match parseExpPart q rest with
    | none => none
    | some (q2, rest2) => if rest2 = [] then some (sgn * q2) else none

/-- What happens in the environment when `get_video_duration` runs ffprobe
for one file. -/
inductive ProbeRun where
  /-- The `subprocess.run` call raises `FileNotFoundError`: the ffprobe binary is absent. -/
  | toolMissing : ProbeRun
  /-- ffprobe exits non-zero, so `check=True` raises `CalledProcessError`. -/
  | exitNonZero : ProbeRun
  /-- ffprobe exits zero with this stdout text. -/
  | stdout (s : String) : ProbeRun
deriving DecidableEq

/-- Model of `get_video_duration` (lines 42–60): `float(result.stdout.strip())` on a
successful run; `FileNotFoundError` (missing tool), `CalledProcessError`
(non-zero exit) and `ValueError` (unparseable stdout) all print an error and
return `None`. -/
def get_video_duration : ProbeRun → Option ℚ
  | .toolMissing => none
  | .exitNonZero => none
  | .stdout s => pythonFloat s

/-! ### The transcode supervisor (lines 94–152) -/

/-- The output path: the input path with its extension replaced by `.mp4`,
via `os.path.splitext` on
`os.path.splitext(input_path)` (lines 95–96, the conversion loop). -/
def output_path (input_path : String) : String :=
  (splitext input_path).1 ++ ".mp4"

/-- The target path printed by the dry-run branch (lines 88–89), transcribed
separately from the conversion loop's computation. -/
def dryRunTarget (input_path : String) : String :=
  (splitext input_path).1 ++ ".mp4"

/-- The ffmpeg invocation built at lines 107–119. -/
def ffmpegCommand (input_path : String) : List String :=
  ["ffmpeg", "-y", "-i", input_path, "-c:v", "libx264", "-preset", "slow",
   "-crf", "18", "-c:a", "aac", "-b:a", "128k", "-progress", "pipe:1",
   "-nostats", output_path input_path]

/-- What happens in the environment when the script launches ffmpeg for one
file. -/
inductive LaunchResult where
  /-- The `subprocess.Popen` call raises `FileNotFoundError`: the ffmpeg binary is absent. -/
  | notFound : LaunchResult
  /-- The process starts, emits these stdout lines, exits with this code and
  leaves this text on stderr. -/
  | launched (stdoutLines : List String) (returncode : Int) (stderrText : String) : LaunchResult
deriving DecidableEq

/-- The diagnostic printed when `Popen` raises `FileNotFoundError` (line 149). -/
def ffmpegNotFoundDiagnostic : String :=
  "ERROR: 'ffmpeg' command not found. Is ffmpeg installed and in your PATH?"

/-- Per-file result of the conversion loop, as observable from the printed
lines (the spec's `TaskOutcome`). -/
inductive TaskOutcome where
  /-- When `duration is None` the loop runs `continue` (line 104): file skipped. -/
  | skipped : TaskOutcome
  /-- Exit status 0 → success line naming the output file (line 146). -/
  | success (outputPath : String) : TaskOutcome
  /-- Non-zero exit status → error lines carrying `process.stderr.read()`
  (lines 141–144). -/
  | failed (diagnostic : String) : TaskOutcome
  /-- On `FileNotFoundError` from `Popen` the fixed diagnostic is printed and
  the function returns (lines 148–150). -/
  | encoderNotFound (diagnostic : String) : TaskOutcome
deriving DecidableEq

/-- Supervise one launched encoder process (lines 121–146): run the progress
loop over its stdout lines, wait for exit, then classify by `returncode`.
Returns the outcome and the emitted delta sequence. -/
def supervise (input_path : String) : LaunchResult → TaskOutcome × List ℚ
  | .notFound => (.encoderNotFound ffmpegNotFoundDiagnostic, [])
  | .launched lines code stderrText =>
    let st := runProgress lines
    (if code = 0 then .success (output_path input_path) else .failed stderrText, st.deltas)

/-- The per-file environment a batch run consumes: the file's path, what its
ffprobe run does, and what its ffmpeg launch does. -/
structure FileEnv where
  path : String
  probe : ProbeRun
  encode : LaunchResult
deriving DecidableEq

/-- The observable record of one file's processing. -/
structure FileReport where
  path : String
  outcome : TaskOutcome
  deltas : List ℚ
deriving DecidableEq

/-- Does processing this file abort the whole batch? Only a successful probe
followed by `FileNotFoundError` from the ffmpeg launch does (lines 148–150
`return`). -/
def abortsBatch (f : FileEnv) : Bool :=
  (get_video_duration f.probe).isSome &&
    (match f.encode with | .notFound => true | .launched _ _ _ => false)

/-- The conversion loop over the batch (lines 94–152): probe each file's
duration, `continue` on `None`; otherwise launch ffmpeg, supervise it, and on
`FileNotFoundError` print the diagnostic and `return`, ending the batch. -/
def processFiles : List FileEnv → List FileReport
  | [] => []
  | f :: rest =>
    match get_video_duration f.probe with
    | none => { path := f.path, outcome := .skipped, deltas := [] } :: processFiles rest
    | some _ =>
      match f.encode with
      | .notFound =>
        [{ path := f.path, outcome := .encoderNotFound ffmpegNotFoundDiagnostic, deltas := [] }]
      | .launched lines code stderrText =>
        let (oc, ds) := supervise f.path (.launched lines code stderrText)
        { path := f.path, outcome := oc, deltas := ds } :: processFiles rest

/-- A child-process launch attempt made by the script. -/
inductive Launch where
  | probe (path : String) : Launch
  | encoder (path : String) : Launch
deriving DecidableEq

/-- The sequence of child-process launch attempts the conversion loop makes:
one ffprobe attempt per file reached, then one ffmpeg attempt unless the
probe failed, stopping after an aborting ffmpeg launch. -/
def processTrace : List FileEnv → List Launch
  | [] => []
  | f :: rest =>
    Launch.probe f.path ::
      match get_video_duration f.probe with
      | none => processTrace rest
      | some _ =>
        match f.encode with
        | .notFound => [Launch.encoder f.path]
        | .launched _ _ _ => Launch.encoder f.path :: processTrace rest

/-- The source→target mapping the dry-run branch prints (lines 84–92). -/
def dryRunPlan (files : List String) : List (String × String) :=
  files.map (fun input_path => (input_path, dryRunTarget input_path))

/-- The launch attempts `convert_videos_to_mp4` makes: none when no file was
discovered, none in dry-run mode (the dry-run branch returns at line 92 before
the conversion loop), otherwise those of the conversion loop. -/
def convertTrace (files : List FileEnv) (dry_run : Bool) : List Launch :=
  if files.isEmpty then []
  else if dry_run then []
  else processTrace files

/-! ### Stream-operation order within one task (lines 123–144) -/

/-- One read/wait operation the supervisor performs on the child's streams. -/
inductive StreamOp where
  /-- One iteration of `for line in process.stdout` (line 130). -/
  | readStdout (line : String) : StreamOp
  /-- The `process.wait()` call (line 140). -/
  | waitExit (code : Int) : StreamOp
  /-- The `process.stderr.read()` call (line 142). -/
  | readStderr (text : String) : StreamOp
deriving DecidableEq

/-- The order of stream operations for one launched task: the whole stdout
stream is read line by line, then the process is waited on, and only then —
and only on non-zero exit — is stderr read, in one shot. -/
def superviseOps : LaunchResult → List StreamOp
  | .notFound => []
  | .launched lines code stderrText =>
    lines.map StreamOp.readStdout ++ [StreamOp.waitExit code] ++
      (if code = 0 then [] else [StreamOp.readStderr stderrText])

/-- Is an operation a stderr read? -/
def isStderrRead : StreamOp → Bool
  | .readStderr _ => true
  | _ => false

/-- Is an operation a stdout read? -/
def isStdoutRead : StreamOp → Bool
  | .readStdout _ => true
  | _ => false

/-- A trace drains stderr concurrently with stdout when some stderr read
happens while stdout reads are still to come. -/
def stderrDrainedConcurrently : List StreamOp → Bool
  | [] => false
  | op :: rest =>
    (isStderrRead op && rest.any isStdoutRead) || stderrDrainedConcurrently rest

/-! ### Theorems -/

/-- C1: on the stream `out_time_ms=1000000`, `out_time_ms=2500000`,
`out_time_ms=2500000`, the supervisor computes `elapsed_seconds = value / 1,000,000`
per matching line and emits the delta sequence `1.0, 1.5, 0.0`; the running
`current_time` tracker is monotonically non-decreasing over the stream; and
interleaved non-matching lines contribute no delta. -/
theorem C1_delta_sequence :
    taskDeltas ["out_time_ms=1000000", "out_time_ms=2500000", "out_time_ms=2500000"]
      = [1, 3/2, 0]
    ∧ List.Chain' (· ≤ ·)
        (currentTimes 0 ["out_time_ms=1000000", "out_time_ms=2500000", "out_time_ms=2500000"])
    ∧ taskDeltas ["frame=12", "out_time_ms=1000000", "bitrate=3.0kbits/s",
                  "out_time_ms=2500000", "out_time_ms=2500000", "speed=1.01x"]
      = [1, 3/2, 0] := by
  have h1 : timeReSearch "out_time_ms=1000000" = some 1000000 := by decide
  have h2 : timeReSearch "out_time_ms=2500000" = some 2500000 := by decide
  have h3 : timeReSearch "frame=12" = none := by decide
  have h4 : timeReSearch "bitrate=3.0kbits/s" = none := by decide
  have h5 : timeReSearch "speed=1.01x" = none := by decide
  refine ⟨?_, ?_, ?_⟩
  · simp only [taskDeltas, runProgress, List.foldl, progressStep, h1, h2, initProgress]
    norm_num
  · simp only [currentTimes, h1, h2]
    norm_num [List.chain'_cons, List.chain'_singleton]
  · simp only [taskDeltas, runProgress, List.foldl, progressStep, h1, h2, h3, h4, h5,
      initProgress]
    norm_num

/-- C2: a launched task's outcome is `success` (naming the output file) exactly
when the exit status is `0`, and `failed` carrying the captured stderr text
(non-empty whenever the child wrote anything) on every non-zero status,
independently of whatever the progress stream contained. -/
theorem C2_exit_status_classifies (input_path stderrText : String)
    (lines lines' : List String) (code : Int) (hc : code ≠ 0) (hs : stderrText ≠ "") :
    (supervise input_path (.launched lines 0 stderrText)).1
      = .success (output_path input_path)
    ∧ (supervise input_path (.launched lines code stderrText)).1 = .failed stderrText
    ∧ stderrText ≠ ""
    ∧ (supervise input_path (.launched lines code stderrText)).1
      = (supervise input_path (.launched lines' code stderrText)).1 := by
  refine ⟨by simp [supervise], by simp [supervise, hc], hs, by simp [supervise]⟩

/-- Witness for C2 at a concrete task. -/
theorem C2_exit_status_classifies_witness :
    (supervise "v.mkv" (.launched [] 0 "boom")).1 = .success (output_path "v.mkv")
    ∧ (supervise "v.mkv" (.launched [] 1 "boom")).1 = .failed "boom"
    ∧ ("boom" : String) ≠ ""
    ∧ (supervise "v.mkv" (.launched [] 1 "boom")).1
      = (supervise "v.mkv" (.launched ["out_time_ms=5"] 1 "boom")).1 :=
  C2_exit_status_classifies "v.mkv" "boom" [] ["out_time_ms=5"] 1 (by decide) (by decide)

/-- Prepending stdout reads never makes a trace concurrently drained. -/
theorem stderrDrained_map_readStdout (l : List String) (t : List StreamOp) :
    stderrDrainedConcurrently (l.map StreamOp.readStdout ++ t)
      = stderrDrainedConcurrently t := by
  induction l with
  | nil => rfl
  | cons a l ih => simp [stderrDrainedConcurrently, isStderrRead, ih]

/-- C9 (code bug): the supervisor never drains stderr concurrently with
stdout — for every launched task, stderr is read only after the whole stdout
stream has been consumed and the process waited on. -/
theorem C9_stderr_read_only_after_stdout (lr : LaunchResult) :
    stderrDrainedConcurrently (superviseOps lr) = false := by
  cases lr with
  | notFound => rfl
  | launched lines code stderrText =>
    rw [superviseOps, List.append_assoc, stderrDrained_map_readStdout]
    by_cases hc : code = 0 <;>
      simp [hc, stderrDrainedConcurrently, isStderrRead, isStdoutRead]

/-- C7: with dry-run set, `convert_videos_to_mp4` launches no child process
(neither ffprobe nor ffmpeg), and the source→target mapping the dry-run branch
prints is exactly the mapping the conversion loop would use. -/
theorem C7_dry_run_no_launch_same_mapping (files : List FileEnv) :
    convertTrace files true = []
    ∧ dryRunPlan (files.map FileEnv.path)
      = files.map (fun f => (f.path, output_path f.path)) := by
  constructor
  · simp [convertTrace]
  · simp [dryRunPlan, dryRunTarget, output_path]

/-- The conversion loop distributes over an append when no file of the prefix
aborts the batch. -/
theorem processFiles_append (pre post : List FileEnv)
    (h : ∀ g ∈ pre, abortsBatch g = false) :
    processFiles (pre ++ post) = processFiles pre ++ processFiles post := by
  induction pre with
  | nil => simp [processFiles]
  | cons f rest ih =>
    have hf : abortsBatch f = false := h f (by simp)
    have hrest : ∀ g ∈ rest, abortsBatch g = false := fun g hg => h g (by simp [hg])
    cases hd : get_video_duration f.probe with
    | none => simp [processFiles, hd, ih hrest]
    | some d =>
      cases he : f.encode with
      | notFound => rw [abortsBatch, hd, he] at hf; simp at hf
      | launched lines code stderrText => simp [processFiles, hd, he, ih hrest]

/-- The launch trace distributes over an append when no file of the prefix
aborts the batch. -/
theorem processTrace_append (pre post : List FileEnv)
    (h : ∀ g ∈ pre, abortsBatch g = false) :
    processTrace (pre ++ post) = processTrace pre ++ processTrace post := by
  induction pre with
  | nil => simp [processTrace]
  | cons f rest ih =>
    have hf : abortsBatch f = false := h f (by simp)
    have hrest : ∀ g ∈ rest, abortsBatch g = false := fun g hg => h g (by simp [hg])
    cases hd : get_video_duration f.probe with
    | none => simp [processTrace, hd, ih hrest]
    | some d =>
      cases he : f.encode with
      | notFound => rw [abortsBatch, hd, he] at hf; simp at hf
      | launched lines code stderrText => simp [processTrace, hd, he, ih hrest]

/-- C4: when the ffmpeg launch raises `FileNotFoundError` for a file whose
duration was probed, the batch ends there — the files after it are never
processed and the fixed diagnostic naming ffmpeg is reported — whereas a
mere non-zero encoder exit leaves the rest of the batch processed. -/
theorem C4_missing_encoder_aborts_batch (pre post : List FileEnv) (f g : FileEnv)
    (hpre : ∀ x ∈ pre, abortsBatch x = false)
    (hfd : (get_video_duration f.probe).isSome = true) (hfe : f.encode = .notFound)
    (hgd : (get_video_duration g.probe).isSome = true)
    (lines : List String) (code : Int) (stderrText : String)
    (hge : g.encode = .launched lines code stderrText) (hcode : code ≠ 0) :
    processFiles (pre ++ f :: post)
      = processFiles pre
        ++ [{ path := f.path, outcome := .encoderNotFound ffmpegNotFoundDiagnostic,
              deltas := [] }]
    ∧ processFiles (pre ++ g :: post)
      = processFiles pre
        ++ { path := g.path, outcome := .failed stderrText, deltas := taskDeltas lines }
          :: processFiles post := by
  obtain ⟨df, hdf⟩ := Option.isSome_iff_exists.mp hfd
  obtain ⟨dg, hdg⟩ := Option.isSome_iff_exists.mp hgd
  constructor
  · rw [processFiles_append pre (f :: post) hpre]
    simp [processFiles, hdf, hfe]
  · rw [processFiles_append pre (g :: post) hpre]
    simp [processFiles, hdg, hge, supervise, hcode, taskDeltas]

/-- Witness for C4 at a concrete two-file batch. -/
theorem C4_missing_encoder_aborts_batch_witness :
    processFiles
        [{ path := "a.mkv", probe := .stdout "10", encode := .notFound },
         { path := "b.mkv", probe := .stdout "10", encode := .launched [] 0 "" }]
      = processFiles []
        ++ [{ path := "a.mkv", outcome := .encoderNotFound ffmpegNotFoundDiagnostic,
              deltas := [] }]
    ∧ processFiles
        [{ path := "a.mkv", probe := .stdout "10", encode := .launched [] 2 "oops" },
         { path := "b.mkv", probe := .stdout "10", encode := .launched [] 0 "" }]
      = processFiles []
        ++ { path := "a.mkv", outcome := .failed "oops", deltas := taskDeltas [] }
          :: processFiles
               [{ path := "b.mkv", probe := .stdout "10", encode := .launched [] 0 "" }] :=
  C4_missing_encoder_aborts_batch []
    [{ path := "b.mkv", probe := .stdout "10", encode := .launched [] 0 "" }]
    { path := "a.mkv", probe := .stdout "10", encode := .notFound }
    { path := "a.mkv", probe := .stdout "10", encode := .launched [] 2 "oops" }
    (by simp) (by decide) rfl (by decide) [] 2 "oops" rfl (by decide)

/-- Evaluating the float parser on the literal `"10"`. -/
theorem pythonFloat_ten : pythonFloat "10" = some 10 := by
  have hstrip : pyStrip "10".data = ['1', '0'] := by decide
  have hdig : takeDigits ['1', '0'] = (['1', '0'], []) := by decide
  have hdv : digitsVal ['1', '0'] = 10 := by decide
  simp [pythonFloat, hstrip, parseDecimal, hdig, hdv, parseExpPart]

/-- C5 (counterexample): a batch whose first file's ffprobe launch raises
`FileNotFoundError` (the inspection tool is absent) does NOT abort — the
first file is merely skipped and the second file is still processed to
success, contradicting the claim that a missing probe binary is fatal to the
batch. -/
theorem C5_counterexample :
    processFiles
        [{ path := "a.mkv", probe := .toolMissing, encode := .launched [] 0 "" },
         { path := "b.mkv", probe := .stdout "10", encode := .launched [] 0 "" }]
      = [{ path := "a.mkv", outcome := .skipped, deltas := [] },
         { path := "b.mkv", outcome := .success "b.mp4", deltas := [] }] := by
  have hout : output_path "b.mkv" = "b.mp4" := by decide
  simp [processFiles, get_video_duration, pythonFloat_ten, supervise, runProgress,
    initProgress, List.foldl, hout]

/-- C5 (amended): a missing inspection tool is handled exactly like any other
probe failure — `get_video_duration` catches the `FileNotFoundError` and
returns `None`, so that file is skipped and the batch continues with the
remaining files; only a missing encoder aborts the batch. -/
theorem C5_missing_probe_tool_skips_file (pre post : List FileEnv) (f : FileEnv)
    (hpre : ∀ x ∈ pre, abortsBatch x = false) (hf : f.probe = .toolMissing) :
    processFiles (pre ++ f :: post)
      = processFiles pre
        ++ { path := f.path, outcome := .skipped, deltas := [] } :: processFiles post := by
  rw [processFiles_append pre (f :: post) hpre]
  simp [processFiles, hf, get_video_duration]

/-- Witness for the amended C5 at a concrete two-file batch. -/
theorem C5_missing_probe_tool_skips_file_witness :
    processFiles
        [{ path := "a.mkv", probe := .toolMissing, encode := .launched [] 0 "" },
         { path := "b.mkv", probe := .stdout "10", encode := .launched [] 0 "" }]
      = processFiles []
        ++ { path := "a.mkv", outcome := .skipped, deltas := [] }
          :: processFiles
               [{ path := "b.mkv", probe := .stdout "10", encode := .launched [] 0 "" }] :=
  C5_missing_probe_tool_skips_file []
    [{ path := "b.mkv", probe := .stdout "10", encode := .launched [] 0 "" }]
    { path := "a.mkv", probe := .toolMissing, encode := .launched [] 0 "" }
    (by simp) rfl

/-- C6: a duration-probe failure for one file (non-zero ffprobe exit or
unparseable stdout) skips exactly that file while every other file of the
batch is still processed, and the launch trace shows a single probe attempt
and no encoder launch for the failing file. -/
theorem C6_probe_failure_skips_only_that_file (pre post : List FileEnv) (f : FileEnv)
    (hpre : ∀ x ∈ pre, abortsBatch x = false)
    (hf : get_video_duration f.probe = none) :
    processFiles (pre ++ f :: post)
      = processFiles pre
        ++ { path := f.path, outcome := .skipped, deltas := [] } :: processFiles post
    ∧ processTrace (pre ++ f :: post)
      = processTrace pre ++ Launch.probe f.path :: processTrace post := by
  constructor
  · rw [processFiles_append pre (f :: post) hpre]
    simp [processFiles, hf]
  · rw [processTrace_append pre (f :: post) hpre]
    simp [processTrace, hf]

/-- Witness for C6: ffprobe prints unparseable output for the first file of a
two-file batch. -/
theorem C6_probe_failure_skips_only_that_file_witness :
    processFiles
        [{ path := "a.mkv", probe := .stdout "N/A", encode := .launched [] 0 "" },
         { path := "b.mkv", probe := .stdout "10", encode := .launched [] 0 "" }]
      = processFiles []
        ++ { path := "a.mkv", outcome := .skipped, deltas := [] }
          :: processFiles
               [{ path := "b.mkv", probe := .stdout "10", encode := .launched [] 0 "" }]
    ∧ processTrace
        [{ path := "a.mkv", probe := .stdout "N/A", encode := .launched [] 0 "" },
         { path := "b.mkv", probe := .stdout "10", encode := .launched [] 0 "" }]
      = processTrace []
        ++ Launch.probe "a.mkv"
          :: processTrace
               [{ path := "b.mkv", probe := .stdout "10", encode := .launched [] 0 "" }] :=
  C6_probe_failure_skips_only_that_file []
    [{ path := "b.mkv", probe := .stdout "10", encode := .launched [] 0 "" }]
    { path := "a.mkv", probe := .stdout "N/A", encode := .launched [] 0 "" }
    (by simp) (by decide)

/-- Auxiliary: when the current state's `current_time` heads a non-decreasing
chain of the stream's remaining matched values, the progress loop only appends
non-negative deltas. -/
theorem foldl_deltas_nonneg (lines : List String) :
    ∀ st : ProgressState,
      List.Chain' (· ≤ ·) (st.current_time :: matchedSeconds lines) →
      (∀ d ∈ st.deltas, 0 ≤ d) →
      ∀ d ∈ (List.foldl progressStep st lines).deltas, 0 ≤ d := by
  induction lines with
  | nil => intro st _ hd; simpa using hd
  | cons line ls ih =>
    intro st hchain hd
    rw [List.foldl_cons]
    cases h : timeReSearch line with
    | none =>
      have hstep : progressStep st line = st := by simp [progressStep, h]
      have hms : matchedSeconds (line :: ls) = matchedSeconds ls := by
        simp [matchedSeconds, List.filterMap_cons, h]
      rw [hms] at hchain
      rw [hstep]
      exact ih st hchain hd
    | some us =>
      have hms : matchedSeconds (line :: ls)
          = ((us : ℚ) / 1000000) :: matchedSeconds ls := by
        simp [matchedSeconds, List.filterMap_cons, h]
      rw [hms, List.chain'_cons] at hchain
      have hstep : progressStep st line
          = { current_time := (us : ℚ) / 1000000,
              deltas := st.deltas ++ [(us : ℚ) / 1000000 - st.current_time] } := by
        simp [progressStep, h]
      rw [hstep]
      refine ih _ hchain.2 ?_
      intro d hd'
      rcases List.mem_append.mp hd' with h1 | h2
      · exact hd d h1
      · rw [List.mem_singleton.mp h2]
        have := hchain.1
        linarith

/-- Auxiliary: the `current_time` trace is a non-decreasing chain starting at
its initial value whenever that value heads a non-decreasing chain of the
matched values. -/
theorem currentTimes_chain (lines : List String) :
    ∀ c : ℚ, List.Chain' (· ≤ ·) (c :: matchedSeconds lines) →
      List.Chain' (· ≤ ·) (currentTimes c lines)
      ∧ (currentTimes c lines).head? = some c := by
  induction lines with
  | nil => intro c _; exact ⟨by simp [currentTimes], by simp [currentTimes]⟩
  | cons line ls ih =>
    intro c hchain
    cases h : timeReSearch line with
    | none =>
      have hms : matchedSeconds (line :: ls) = matchedSeconds ls := by
        simp [matchedSeconds, List.filterMap_cons, h]
      rw [hms] at hchain
      have hrec := ih c hchain
      have hcur : currentTimes c (line :: ls) = c :: currentTimes c ls := by
        simp [currentTimes, h]
      rw [hcur]
      refine ⟨List.chain'_cons'.mpr ⟨?_, hrec.1⟩, rfl⟩
      intro y hy
      rw [hrec.2, Option.mem_some_iff] at hy
      exact hy ▸ le_refl c
    | some us =>
      have hms : matchedSeconds (line :: ls)
          = ((us : ℚ) / 1000000) :: matchedSeconds ls := by
        simp [matchedSeconds, List.filterMap_cons, h]
      rw [hms, List.chain'_cons] at hchain
      have hrec := ih ((us : ℚ) / 1000000) hchain.2
      have hcur : currentTimes c (line :: ls)
          = c :: currentTimes ((us : ℚ) / 1000000) ls := by
        simp [currentTimes, h]
      rw [hcur]
      refine ⟨List.chain'_cons'.mpr ⟨?_, hrec.1⟩, rfl⟩
      intro y hy
      rw [hrec.2, Option.mem_some_iff] at hy
      exact hy ▸ hchain.1

/-- C3: on a stream whose matched `out_time_ms` values are non-decreasing,
every delta the supervisor emits is non-negative and the `current_time`
tracker's trace is monotonically non-decreasing. -/
theorem C3_reported_elapsed_never_decreases (lines : List String)
    (h : List.Chain' (· ≤ ·) (lines.filterMap timeReSearch)) :
    (∀ d ∈ taskDeltas lines, 0 ≤ d)
    ∧ List.Chain' (· ≤ ·) (currentTimes 0 lines) := by
  have hq : List.Chain' (· ≤ ·) (matchedSeconds lines) := by
    rw [matchedSeconds]
    refine List.chain'_map_of_chain' _ (fun a b hab => ?_) h
    have hc : (a : ℚ) ≤ (b : ℚ) := by exact_mod_cast hab
    have hpos : (0 : ℚ) < 1000000 := by norm_num
    exact (div_le_div_iff_of_pos_right hpos).mpr hc
  have hzero : List.Chain' (· ≤ ·) ((0 : ℚ) :: matchedSeconds lines) := by
    refine List.chain'_cons'.mpr ⟨?_, hq⟩
    intro y hy
    rw [matchedSeconds, List.head?_map] at hy
    simp only [Option.mem_def, Option.map_eq_some'] at hy
    obtain ⟨us, _, rfl⟩ := hy
    exact div_nonneg (Nat.cast_nonneg us) (by norm_num)
  refine ⟨fun d hd => ?_, (currentTimes_chain lines 0 hzero).1⟩
  refine foldl_deltas_nonneg lines initProgress ?_ ?_ d hd
  · simpa [initProgress] using hzero
  · simp [initProgress]

/-- Witness for C3 on a concrete non-decreasing stream with an interleaved
non-matching line. -/
theorem C3_reported_elapsed_never_decreases_witness :
    List.Chain' (· ≤ ·)
      (["out_time_ms=1000000", "frame=9", "out_time_ms=2500000"].filterMap timeReSearch)
    ∧ ((∀ d ∈ taskDeltas ["out_time_ms=1000000", "frame=9", "out_time_ms=2500000"], 0 ≤ d)
       ∧ List.Chain' (· ≤ ·)
           (currentTimes 0 ["out_time_ms=1000000", "frame=9", "out_time_ms=2500000"])) :=
  have hfm : List.filterMap timeReSearch
      ["out_time_ms=1000000", "frame=9", "out_time_ms=2500000"] = [1000000, 2500000] := by
    decide
  have hch : List.Chain' (· ≤ ·) (List.filterMap timeReSearch
      ["out_time_ms=1000000", "frame=9", "out_time_ms=2500000"]) := by
    rw [hfm]; norm_num [List.chain'_cons, List.chain'_singleton]
  ⟨hch, C3_reported_elapsed_never_decreases
    ["out_time_ms=1000000", "frame=9", "out_time_ms=2500000"] hch⟩

/-- Auxiliary: the progress loop only ever appends to the emitted delta list. -/
theorem foldl_deltas_extend (lines : List String) :
    ∀ st : ProgressState,
      ∃ t, (List.foldl progressStep st lines).deltas = st.deltas ++ t := by
  induction lines with
  | nil => intro st; exact ⟨[], by simp⟩
  | cons line ls ih =>
    intro st
    rw [List.foldl_cons]
    cases h : timeReSearch line with
    | none =>
      have hstep : progressStep st line = st := by simp [progressStep, h]
      rw [hstep]; exact ih st
    | some us =>
      have hstep : progressStep st line
          = { current_time := (us : ℚ) / 1000000,
              deltas := st.deltas ++ [(us : ℚ) / 1000000 - st.current_time] } := by
        simp [progressStep, h]
      rw [hstep]
      obtain ⟨t, ht⟩ := ih { current_time := (us : ℚ) / 1000000,
                             deltas := st.deltas ++ [(us : ℚ) / 1000000 - st.current_time] }
      exact ⟨[(us : ℚ) / 1000000 - st.current_time] ++ t, by simp [ht]⟩

/-- Auxiliary: the first delta a fresh task emits equals the first matched
absolute elapsed value of its stream. -/
theorem taskDeltas_head (lines : List String) :
    (taskDeltas lines).head? = (matchedSeconds lines).head? := by
  rw [taskDeltas, runProgress]
  suffices h : ∀ st : ProgressState, st.deltas = [] → st.current_time = 0 →
      (List.foldl progressStep st lines).deltas.head? = (matchedSeconds lines).head? from
    h initProgress rfl rfl
  induction lines with
  | nil => intro st h0 _; simp [matchedSeconds, h0]
  | cons line ls ih =>
    intro st h0 hc
    rw [List.foldl_cons]
    cases h : timeReSearch line with
    | none =>
      have hstep : progressStep st line = st := by simp [progressStep, h]
      have hms : matchedSeconds (line :: ls) = matchedSeconds ls := by
        simp [matchedSeconds, List.filterMap_cons, h]
      rw [hstep, hms]
      exact ih st h0 hc
    | some us =>
      have hstep : progressStep st line
          = { current_time := (us : ℚ) / 1000000, deltas := [(us : ℚ) / 1000000] } := by
        simp [progressStep, h, h0, hc]
      rw [hstep]
      obtain ⟨t, ht⟩ := foldl_deltas_extend ls
        { current_time := (us : ℚ) / 1000000, deltas := [(us : ℚ) / 1000000] }
      rw [ht]
      simp [matchedSeconds, List.filterMap_cons, h]

/-- C10: the `current_time` tracker is re-initialised to `0` for each launched
task, so a file's delta sequence inside a batch is exactly the one computed
from its own stream alone — independent of every earlier file — and the first
emitted delta equals the first matched record's absolute elapsed seconds. -/
theorem C10_tracker_reset_per_task (pre post : List FileEnv) (f : FileEnv)
    (hpre : ∀ x ∈ pre, abortsBatch x = false)
    (hfd : (get_video_duration f.probe).isSome = true)
    (lines : List String) (code : Int) (stderrText : String)
    (hfe : f.encode = .launched lines code stderrText) :
    processFiles (pre ++ f :: post)
      = processFiles pre
        ++ { path := f.path,
             outcome := (supervise f.path (.launched lines code stderrText)).1,
             deltas := taskDeltas lines } :: processFiles post
    ∧ (taskDeltas lines).head? = (matchedSeconds lines).head? := by
  obtain ⟨df, hdf⟩ := Option.isSome_iff_exists.mp hfd
  constructor
  · rw [processFiles_append pre (f :: post) hpre]
    simp [processFiles, hdf, hfe, supervise, taskDeltas, runProgress]
  · exact taskDeltas_head lines

/-- Witness for C10: one earlier successful file, then a task whose first
matched record is `out_time_ms=1000000`. -/
theorem C10_tracker_reset_per_task_witness :
    processFiles
        [{ path := "a.mkv", probe := .stdout "10",
           encode := .launched ["out_time_ms=7000000"] 0 "" },
         { path := "b.mkv", probe := .stdout "10",
           encode := .launched ["out_time_ms=1000000"] 0 "" }]
      = processFiles
          [{ path := "a.mkv", probe := .stdout "10",
             encode := .launched ["out_time_ms=7000000"] 0 "" }]
        ++ { path := "b.mkv",
             outcome := (supervise "b.mkv" (.launched ["out_time_ms=1000000"] 0 "")).1,
             deltas := taskDeltas ["out_time_ms=1000000"] } :: processFiles []
    ∧ (taskDeltas ["out_time_ms=1000000"]).head?
      = (matchedSeconds ["out_time_ms=1000000"]).head? :=
  C10_tracker_reset_per_task
    [{ path := "a.mkv", probe := .stdout "10",
       encode := .launched ["out_time_ms=7000000"] 0 "" }] []
    { path := "b.mkv", probe := .stdout "10",
      encode := .launched ["out_time_ms=1000000"] 0 "" }
    (by intro x hx; rw [List.mem_singleton.mp hx]; rfl) (by decide)
    ["out_time_ms=1000000"] 0 "" rfl

/-- Auxiliary: the inner discovery loop over one directory's filenames is the
filtered, joined file list appended to the accumulator. -/
theorem files_foldl_filter (root : String) (files : List String) :
    ∀ acc : List String,
      files.foldl
        (fun acc2 filename =>
          if extMatches filename then acc2 ++ [osJoin root filename] else acc2) acc
      = acc ++ (files.filter extMatches).map (fun fn => osJoin root fn) := by
  induction files with
  | nil => intro acc; simp
  | cons fn fns ih =>
    intro acc
    by_cases h : extMatches fn <;>
      simp [List.foldl_cons, h, ih, List.filter_cons]

/-- Auxiliary: the nested discovery loops compute the flat filtered walk. -/
theorem discoverFiles_eq_filter (walk : List WalkEntry) :
    discoverFiles walk
      = ((walk.flatMap (fun e => e.files.map (fun fn => (e.root, fn)))).filter
          (fun pr => extMatches pr.2)).map (fun pr => osJoin pr.1 pr.2) := by
  rw [discoverFiles]
  suffices h : ∀ acc : List String,
      walk.foldl
        (fun acc e =>
          e.files.foldl
            (fun acc2 filename =>
              if extMatches filename then acc2 ++ [osJoin e.root filename] else acc2)
            acc)
        acc
      = acc ++ ((walk.flatMap (fun e => e.files.map (fun fn => (e.root, fn)))).filter
          (fun pr => extMatches pr.2)).map (fun pr => osJoin pr.1 pr.2) by
    simpa using h []
  induction walk with
  | nil => intro acc; simp
  | cons e es ih =>
    intro acc
    rw [List.foldl_cons, files_foldl_filter, ih]
    rw [List.flatMap_cons, List.filter_append, List.map_append, List.append_assoc]
    congr 1
    rw [List.filter_map, List.map_map]
    rfl

/-- C8: the discovered file list is exactly the recursive walk filtered by the
case-insensitive extension test — a path is discovered iff it joins a walked
directory with a filename whose lower-cased extension is one of the six
recognized ones. -/
theorem C8_discovery_is_extension_filter (walk : List WalkEntry) :
    discoverFiles walk
      = ((walk.flatMap (fun e => e.files.map (fun fn => (e.root, fn)))).filter
          (fun pr => extMatches pr.2)).map (fun pr => osJoin pr.1 pr.2)
    ∧ ∀ p, p ∈ discoverFiles walk ↔
        ∃ e ∈ walk, ∃ fn ∈ e.files,
          (splitext fn).2.toLower ∈ video_extensions ∧ p = osJoin e.root fn := by
  have hext_iff : ∀ fn : String,
      extMatches fn = true ↔ (splitext fn).2.toLower ∈ video_extensions := by
    intro fn
    rw [extMatches]
    exact List.elem_iff
  refine ⟨discoverFiles_eq_filter walk, fun p => ?_⟩
  rw [discoverFiles_eq_filter walk]
  simp only [List.mem_map, List.mem_filter, List.mem_flatMap, Prod.exists]
  constructor
  · rintro ⟨r, fn, ⟨⟨e, he, fn', hfn', heq⟩, hext⟩, rfl⟩
    rw [Prod.mk.injEq] at heq
    obtain ⟨rfl, rfl⟩ := heq
    exact ⟨e, he, fn', hfn', (hext_iff fn').mp hext, rfl⟩
  · rintro ⟨e, he, fn, hfn, hext, rfl⟩
    exact ⟨e.root, fn, ⟨⟨e, he, fn, hfn, rfl⟩, (hext_iff fn).mpr hext⟩, rfl⟩

end BatchConvert
